import Mathlib

/-!
Verification of the `serverstatus` presence service.

The development shallowly embeds the TypeScript sources:

* `src/presenceStore.ts` — the TTL-based presence store (`PresenceStore`),
* the subscription-enabled WebSocket server (unnamed source file) — subscription
  registry, `notifySubscribers` broadcast and the connection message/close
  handlers (`handleMessage`, `handleClose`),
* `src/wsServer.ts` — the plain WebSocket server without a subscription
  registry (`wsSimpleHandleMessage`),
* the `POST /presence/heartbeat` handler of `src/server.ts`
  (`httpHeartbeatValid`).

Conventions of the embedding:

* JavaScript numbers that the code uses as timestamps / TTLs are modelled as
  `Int`; `Date.now()` is modelled as an explicit `now : Int` argument, held
  constant for the duration of one store/handler operation (the code calls
  `Date.now()` more than once inside a single synchronous operation; those
  calls are at most a millisecond apart and all claims speak about a single
  instant).
* A JavaScript `Map` is modelled as an association list with the JS `Map`
  semantics: `get` finds the first binding, `set` overwrites in place keeping
  the position (appending when absent), `delete` removes the binding.
* JSON values arriving on a WebSocket are modelled by the inductive `Json`;
  a failed `JSON.parse` is the `none` case of the handler's `Option Json`
  argument.  JS truthiness is `Json.truthy`.
* A WebSocket peer is identified by a `Nat` connection id; `ConnState` records
  whether its `readyState` is `OPEN` and whether `ws.send` succeeds (a send on
  a torn-down connection throws, which the code catches).
-/

/-- JSON values, as produced by `JSON.parse`. -/
inductive Json where
  | null : Json
  | bool (b : Bool) : Json
  | num (n : Int) : Json
  | str (s : String) : Json
  | arr (elts : List Json) : Json
  | obj (fields : List (String × Json)) : Json

namespace Json

/-- JS property access `v[k]` for the fields the handlers read: on an object
it returns the field (or `null`, standing for `undefined`, when missing); on
any non-object it returns `null` (standing for `undefined`). -/
def jget : Json → String → Json
  | .obj fs, k =>
    match fs.find? (fun e => e.1 = k) with
    | some e => e.2
    | none => .null
  | _, _ => .null

/-- JS truthiness of a parsed JSON value. -/
def truthy : Json → Bool
  | .null => false
  | .bool b => b
  | .num n => n ≠ 0
  | .str s => s ≠ ""
  | .arr _ => true
  | .obj _ => true

/-- JS strict equality `v === lit` against a string literal. -/
def isStrLit : Json → String → Bool
  | .str s, t => s = t
  | _, _ => false

/-- `Array.isArray`. -/
def isArr : Json → Bool
  | .arr _ => true
  | _ => false

/-- Whether the parsed value is `null` (property access on it throws). -/
def isNull : Json → Bool
  | .null => true
  | _ => false

end Json

/-- `msg.type === t` for a parsed message. -/
def jTypeIs (m : Json) (t : String) : Bool :=
  (m.jget "type").isStrLit t

/-- One record of `PresenceStore` (`presenceStore.ts`).  `status` is a string
(the TS type is the string-literal union `"online" | "away" | "busy"`);
`metadata` is an optional JSON object passed through verbatim. -/
structure PresenceRecord where
  userId : String
  status : String
  lastSeen : Int
  expiresAt : Int
  metadata : Option Json

/-- A snapshot: the record plus the two fields derived at read time
(`presenceStore.ts`, `toSnapshot`). -/
structure PresenceSnapshot where
  userId : String
  status : String
  lastSeen : Int
  expiresAt : Int
  metadata : Option Json
  isOnline : Bool
  ttlMs : Int

/-- Backing map of the store: a JS `Map<string, PresenceRecord>`. -/
abbrev PresenceMap := List (String × PresenceRecord)

/-- `Map.get`: first binding of the key. -/
def mapGet (m : PresenceMap) (k : String) : Option PresenceRecord :=
  match m.find? (fun e => e.1 = k) with
  | some e => some e.2
  | none => none

/-- `Map.set`: overwrite the binding in place, else append. -/
def mapSet : PresenceMap → String → PresenceRecord → PresenceMap
  | [], k, v => [(k, v)]
  | e :: m, k, v => if e.1 = k then (k, v) :: m else e :: mapSet m k v

/-- `Map.delete`: remove the binding (keys are unique in a JS `Map`, so
removing every binding of the key is the same operation). -/
def mapDelete (m : PresenceMap) (k : String) : PresenceMap :=
  m.filter (fun e => e.1 ≠ k)

/-- The presence store: configured default TTL plus the backing map
(`presenceStore.ts`, class `PresenceStore`). -/
structure PresenceStore where
  ttlMs : Int
  store : PresenceMap

namespace PresenceStore

/-- `isExpired` (`presenceStore.ts` line 85). -/
def isExpired (r : PresenceRecord) (now : Int) : Bool :=
  r.expiresAt ≤ now

/-- `toSnapshot` (`presenceStore.ts` line 89). -/
def toSnapshot (r : PresenceRecord) (now : Int) : PresenceSnapshot :=
  let ttlMs := max 0 (r.expiresAt - now)
  ⟨r.userId, r.status, r.lastSeen, r.expiresAt, r.metadata, decide (0 < ttlMs), ttlMs⟩

/-- `upsert` (`presenceStore.ts` line 24).  The optional `overrides` object is
flattened into its two optional fields. -/
def upsert (s : PresenceStore) (now : Int) (userId status : String)
    (ttlOverride : Option Int) (metadata : Option Json) :
    PresenceStore × PresenceSnapshot :=
  let effectiveTtl := max 1000 (ttlOverride.getD s.ttlMs)
  let expiresAt := now + effectiveTtl
  let record : PresenceRecord := ⟨userId, status, now, expiresAt, metadata⟩
  (⟨s.ttlMs, mapSet s.store userId record⟩, toSnapshot record now)

/-- `markOffline` (`presenceStore.ts` line 47). -/
def markOffline (s : PresenceStore) (userId : String) : PresenceStore :=
  ⟨s.ttlMs, mapDelete s.store userId⟩

/-- `getOne` (`presenceStore.ts` line 51): lazy-eviction read.  Returns the
store after the read (eviction mutates it) together with the result. -/
def getOne (s : PresenceStore) (now : Int) (userId : String) :
    PresenceStore × Option PresenceSnapshot :=
  match mapGet s.store userId with
  | none => (s, none)
  | some record =>
    if isExpired record now then (⟨s.ttlMs, mapDelete s.store userId⟩, none)
    else (s, some (toSnapshot record now))

end PresenceStore

/-- `Array.from(new Set(userIds))`: de-duplication keeping the first
occurrence of each element, in order. -/
def dedupFirst : List String → List String
  | [] => []
  | x :: xs => x :: dedupFirst (xs.filter (fun y => y ≠ x))
termination_by l => l.length
decreasing_by
  simp only [List.length_cons]
  exact Nat.lt_succ_of_le (List.length_filter_le _ _)

namespace PresenceStore

/-- The `deduped.map((userId) => this.getOne(userId))` loop of `getMany`:
each `getOne` acts on the store left by the previous one. -/
def getManyAux (now : Int) : PresenceStore → List String →
    PresenceStore × List (Option PresenceSnapshot)
  | s, [] => (s, [])
  | s, u :: us =>
    let p := getOne s now u
    let q := getManyAux now p.1 us
    (q.1, p.2 :: q.2)

/-- `getMany` (`presenceStore.ts` line 62). -/
def getMany (s : PresenceStore) (now : Int) (userIds : List String) :
    PresenceStore × List PresenceSnapshot :=
  let q := getManyAux now s (dedupFirst userIds)
  (q.1, q.2.filterMap id)

/-- `cleanupExpired` (`presenceStore.ts` line 69). -/
def cleanupExpired (s : PresenceStore) (now : Int) : PresenceStore × Nat :=
  (⟨s.ttlMs, s.store.filter (fun e => ¬ isExpired e.2 now)⟩,
    (s.store.filter (fun e => isExpired e.2 now)).length)

/-- `size` (`presenceStore.ts` line 81). -/
def size (s : PresenceStore) : Nat :=
  s.store.length

end PresenceStore

/-- Observable state of a WebSocket peer during one broadcast: whether its
`readyState` is `OPEN`, and whether `ws.send` succeeds (it throws on a
connection already torn down). -/
structure ConnState where
  isOpen : Bool
  sendOk : Bool

/-- The subscription registry `Map<WebSocket, Subscription>`: connection id
mapped to its watched friend set (stored de-duplicated, as a JS `Set`). -/
abbrev Subs := List (Nat × List String)

/-- The generic error reply sent from the message handler's `catch`. -/
def errorMsg : Json :=
  .obj [("type", .str "error"), ("error", .str "Invalid message")]

/-- The `heartbeat-ack` reply. -/
def ackMsg (uid : String) : Json :=
  .obj [("type", .str "heartbeat-ack"), ("userId", .str uid)]

/-- The single-user `friends-presence-update` message built by
`notifySubscribers`. -/
def presenceUpdateMsg (uid status : String) (lastSeen : Int) : Json :=
  .obj [("type", .str "friends-presence-update"),
    ("users", .arr [.obj [("userId", .str uid), ("status", .str status),
      ("lastSeen", .num lastSeen), ("metadata", .null)]])]

/-- One entry of the `users` array in `presence-response` /
`friends-presence-update` replies: the
`status: record.isOnline ? record.status : "offline"` mapping. -/
def userPayload (r : PresenceSnapshot) : Json :=
  .obj [("userId", .str r.userId),
    ("status", .str (if r.isOnline then r.status else "offline")),
    ("lastSeen", .num r.lastSeen),
    ("metadata", r.metadata.getD .null)]

/-- The `presence-response` reply of the `query-presence` branch. -/
def presenceResponseMsg (requestId : Json) (users : List PresenceSnapshot) : Json :=
  .obj [("type", .str "presence-response"), ("requestId", requestId),
    ("users", .arr (users.map userPayload))]

/-- Initial `friends-presence-update` reply of the `subscribe-friends` branch. -/
def friendsUpdateReplyMsg (users : List PresenceSnapshot) : Json :=
  .obj [("type", .str "friends-presence-update"),
    ("users", .arr (users.map userPayload))]

/-- The `for (const [ws, sub] of subscriptions.entries())` loop of
`notifySubscribers`: a subscribed open connection is sent `upd`; if the send
throws, the connection's registry entry is deleted and the loop continues.
Returns the registry after the loop and the deliveries made, in order. -/
def notifyLoop (env : Nat → ConnState) (upd : Json) (friendId : String) :
    Subs → Subs × List (Nat × Json)
  | [] => ([], [])
  | (c, fids) :: rest =>
    let q := notifyLoop env upd friendId rest
    if fids.contains friendId && (env c).isOpen then
      if (env c).sendOk then ((c, fids) :: q.1, (c, upd) :: q.2)
      else (q.1, q.2)
    else ((c, fids) :: q.1, q.2)

/-- `notifySubscribers` of the subscription-enabled WebSocket server. -/
def notifySubscribers (env : Nat → ConnState) (subs : Subs)
    (friendId status : String) (lastSeen : Int) : Subs × List (Nat × Json) :=
  notifyLoop env (presenceUpdateMsg friendId status lastSeen) friendId subs

/-- `subscriptions.get(ws)` followed by in-place update of `friendIds`, or
`subscriptions.set(ws, ...)` when absent (`subscribe-friends` branch). -/
def subsSet (subs : Subs) (c : Nat) (fids : List String) : Subs :=
  if subs.any (fun e => e.1 = c) then
    subs.map (fun e => if e.1 = c then (c, fids) else e)
  else subs ++ [(c, fids)]

/-- `msg.status || "online"`. -/
def statusField (m : Json) : String :=
  let j := m.jget "status"
  if j.truthy then
    match j with
    | .str s => s
    | _ => "online"
  else "online"

/-- `msg.ttlMs || 60000` (the handlers always pass a TTL override). -/
def ttlField (m : Json) : Int :=
  match m.jget "ttlMs" with
  | .num n => if n = 0 then 60000 else n
  | _ => 60000

/-- `msg.metadata || {}`. -/
def metadataField (m : Json) : Json :=
  let j := m.jget "metadata"
  if j.truthy then j else .obj []

/-- `msg.userIds.filter((id) => typeof id === "string")`. -/
def strListOf (xs : List Json) : List String :=
  xs.filterMap (fun j => match j with | .str s => some s | _ => none)

/-- `record?.lastSeen || Date.now()`: the last-seen timestamp captured by the
`offline` branch and the close handler before removing the record. -/
def capturedLastSeen (g : Option PresenceSnapshot) (now : Int) : Int :=
  match g with
  | some r => if r.lastSeen = 0 then now else r.lastSeen
  | none => now

/-- Everything one `message` event of the subscription-enabled WebSocket
server produces: the new store and registry, the connection-local `userId`
binding, the replies sent back on this connection, and the pushes delivered
to (other) connections by `notifySubscribers`. -/
structure HandlerResult where
  store : PresenceStore
  subs : Subs
  localUserId : Option String
  replies : List Json
  pushes : List (Nat × Json)

/-- The `ws.on("message")` handler of the subscription-enabled WebSocket
server.  `data = none` models a `JSON.parse` failure; `some .null` models a
parse that yields `null`, on which the `msg.type` access throws — both end in
the `catch` that sends the generic error reply.  `selfId` is this connection,
`localUserId` the connection-local `userId` variable. -/
def handleMessage (env : Nat → ConnState) (now : Int) (st : PresenceStore)
    (subs : Subs) (selfId : Nat) (localUserId : Option String)
    (data : Option Json) : HandlerResult :=
  match data with
  | none => ⟨st, subs, localUserId, [errorMsg], []⟩
  | some msg =>
    if msg.isNull then ⟨st, subs, localUserId, [errorMsg], []⟩
    else if jTypeIs msg "heartbeat" && (msg.jget "userId").truthy then
      match msg.jget "userId" with
      | .str uid =>
        let p := st.upsert now uid (statusField msg) (some (ttlField msg))
          (some (metadataField msg))
        let q := notifySubscribers env subs uid
          (if p.2.isOnline then p.2.status else "offline") p.2.lastSeen
        ⟨p.1, q.1, some uid, [ackMsg uid], q.2⟩
      | _ => ⟨st, subs, localUserId, [], []⟩
    else if jTypeIs msg "offline" && (msg.jget "userId").truthy then
      match msg.jget "userId" with
      | .str uid =>
        let g := st.getOne now uid
        let lastSeen := capturedLastSeen g.2 now
        let st2 := g.1.markOffline uid
        let q := notifySubscribers env subs uid "offline" lastSeen
        ⟨st2, q.1, some uid, [], q.2⟩
      | _ => ⟨st, subs, localUserId, [], []⟩
    else if jTypeIs msg "query-presence" && (msg.jget "userIds").isArr then
      match msg.jget "userIds" with
      | .arr xs =>
        let p := st.getMany now (strListOf xs)
        ⟨p.1, subs, localUserId,
          [presenceResponseMsg (msg.jget "requestId") p.2], []⟩
      | _ => ⟨st, subs, localUserId, [], []⟩
    else if jTypeIs msg "subscribe-friends" && (msg.jget "friendIds").isArr then
      match msg.jget "friendIds" with
      | .arr xs =>
        let fids := strListOf xs
        let subs2 := subsSet subs selfId (dedupFirst fids)
        let p := st.getMany now fids
        ⟨p.1, subs2, localUserId, [friendsUpdateReplyMsg p.2], []⟩
      | _ => ⟨st, subs, localUserId, [], []⟩
    else if jTypeIs msg "unsubscribe-friends" then
      ⟨st, subs.filter (fun e => e.1 ≠ selfId), localUserId, [], []⟩
    else
      ⟨st, subs, localUserId, [], []⟩

/-- Result of the `ws.on("close")` handler. -/
structure CloseResult where
  store : PresenceStore
  subs : Subs
  pushes : List (Nat × Json)

/-- The `ws.on("close")` handler of the subscription-enabled WebSocket
server: unconditional `subscriptions.delete(ws)`, then — when the connection
had identified — capture of the last-seen timestamp, `markOffline`, and an
offline broadcast to the remaining subscribers. -/
def handleClose (env : Nat → ConnState) (now : Int) (st : PresenceStore)
    (subs : Subs) (selfId : Nat) (localUserId : Option String) : CloseResult :=
  let subs1 := subs.filter (fun e => e.1 ≠ selfId)
  match localUserId with
  | none => ⟨st, subs1, []⟩
  | some uid =>
    let g := st.getOne now uid
    let lastSeen := capturedLastSeen g.2 now
    let st2 := g.1.markOffline uid
    let q := notifySubscribers env subs1 uid "offline" lastSeen
    ⟨st2, q.1, q.2⟩

/-- Result of one `message` event of the plain WebSocket server
(`wsServer.ts`), which has no subscription registry: `pushes` lists the
messages it sends to connections other than the sender — the source sends
none, so every branch leaves it empty. -/
structure SimpleHandlerResult where
  store : PresenceStore
  localUserId : Option String
  replies : List Json
  pushes : List (Nat × Json)

/-- The `ws.on("message")` handler of `wsServer.ts`. -/
def wsSimpleHandleMessage (now : Int) (st : PresenceStore)
    (localUserId : Option String) (data : Option Json) : SimpleHandlerResult :=
  match data with
  | none => ⟨st, localUserId, [errorMsg], []⟩
  | some msg =>
    if msg.isNull then ⟨st, localUserId, [errorMsg], []⟩
    else if jTypeIs msg "heartbeat" && (msg.jget "userId").truthy then
      match msg.jget "userId" with
      | .str uid =>
        let p := st.upsert now uid (statusField msg) (some (ttlField msg))
          (some (metadataField msg))
        ⟨p.1, some uid, [ackMsg uid], []⟩
      | _ => ⟨st, localUserId, [], []⟩
    else if jTypeIs msg "offline" && (msg.jget "userId").truthy then
      match msg.jget "userId" with
      | .str uid => ⟨st.markOffline uid, some uid, [], []⟩
      | _ => ⟨st, localUserId, [], []⟩
    else if jTypeIs msg "query-presence" && (msg.jget "userIds").isArr then
      match msg.jget "userIds" with
      | .arr xs =>
        let p := st.getMany now (strListOf xs)
        ⟨p.1, localUserId,
          [presenceResponseMsg (msg.jget "requestId") p.2], []⟩
      | _ => ⟨st, localUserId, [], []⟩
    else if jTypeIs msg "subscribe-friends" && (msg.jget "friendIds").isArr then
      match msg.jget "friendIds" with
      | .arr xs =>
        let p := st.getMany now (strListOf xs)
        ⟨p.1, localUserId, [friendsUpdateReplyMsg p.2], []⟩
      | _ => ⟨st, localUserId, [], []⟩
    else
      ⟨st, localUserId, [], []⟩

/-- Result of `POST /presence/heartbeat` (`server.ts` line 206) on a payload
that passed schema validation: the mutated store, the JSON response body, and
the messages pushed to WebSocket subscribers — the handler pushes none. -/
structure HttpResult where
  store : PresenceStore
  body : Json
  pushes : List (Nat × Json)

/-- The `POST /presence/heartbeat` handler of `server.ts` after successful
validation of the body. -/
def httpHeartbeatValid (st : PresenceStore) (now : Int) (userId status : String)
    (ttlMs : Option Int) (metadata : Option Json) : HttpResult :=
  let p := st.upsert now userId status ttlMs metadata
  ⟨p.1,
    .obj [("userId", .str p.2.userId), ("status", .str p.2.status),
      ("ttlMs", .num p.2.ttlMs), ("lastSeen", .num p.2.lastSeen),
      ("metadata", p.2.metadata.getD .null)],
    []⟩

/-- Store invariant maintained by the API: every binding's record carries the
binding's key as its `userId`. -/
def storeWF (s : PresenceStore) : Prop :=
  ∀ e ∈ s.store, e.2.userId = e.1

/-- Registry invariant of a JS `Map`: connection keys are unique. -/
def subsKeysNodup (subs : Subs) : Prop :=
  (subs.map Prod.fst).Nodup

/-- A well-formed heartbeat message. -/
def hbMsg (uid status : String) (ttl : Int) : Json :=
  .obj [("type", .str "heartbeat"), ("userId", .str uid),
    ("status", .str status), ("ttlMs", .num ttl)]

/-- A well-formed offline message. -/
def offlineMsg (uid : String) : Json :=
  .obj [("type", .str "offline"), ("userId", .str uid)]

/-- Environment in which every connection is open and sends succeed. -/
def envAll : Nat → ConnState := fun _ => ⟨true, true⟩

/-- Environment in which connection 1's sends throw and all others succeed. -/
def envFail1 : Nat → ConnState := fun c => if c = 1 then ⟨true, false⟩ else ⟨true, true⟩

/-- A concrete record expiring at time 1000. -/
def rA : PresenceRecord := ⟨"a", "online", 0, 1000, none⟩

/-- A concrete store holding only `rA` under key `"a"`. -/
def sA : PresenceStore := ⟨60000, [("a", rA)]⟩

/-- A concrete empty store with the default TTL. -/
def sEmpty : PresenceStore := ⟨60000, []⟩

/-- A concrete registry: connections 1 and 2 watch `"p"`, connection 3 watches
`"q"`. -/
def subsEx : Subs := [(1, ["p"]), (2, ["p"]), (3, ["q"])]

theorem mapGet_cons (e : String × PresenceRecord) (m : PresenceMap) (k : String) :
    mapGet (e :: m) k = if e.1 = k then some e.2 else mapGet m k := by
  by_cases h : e.1 = k <;> simp [mapGet, List.find?_cons, h]

theorem mapGet_mapDelete_self (m : PresenceMap) (k : String) :
    mapGet (mapDelete m k) k = none := by
  induction m with
  | nil => rfl
  | cons e m ih =>
    by_cases h : e.1 = k
    · simpa [mapDelete, List.filter_cons, h] using ih
    · simpa [mapDelete, List.filter_cons, h, mapGet_cons] using ih

theorem mapGet_mapDelete_ne (m : PresenceMap) (k k' : String) (h : k' ≠ k) :
    mapGet (mapDelete m k) k' = mapGet m k' := by
  induction m with
  | nil => rfl
  | cons e m ih =>
    have hkk' : ¬ k = k' := fun hk => h hk.symm
    by_cases he : e.1 = k
    · simp [mapDelete, List.filter_cons, he, mapGet_cons, hkk'] at ih ⊢
      exact ih
    · simp [mapDelete, List.filter_cons, he, mapGet_cons] at ih ⊢
      by_cases he' : e.1 = k' <;> simp [he', ih]

theorem mapGet_mapSet_self (m : PresenceMap) (k : String) (v : PresenceRecord) :
    mapGet (mapSet m k v) k = some v := by
  induction m with
  | nil => simp [mapSet, mapGet_cons]
  | cons e m ih =>
    by_cases h : e.1 = k <;> simp [mapSet, h, mapGet_cons, ih]

theorem mapGet_mapSet_ne (m : PresenceMap) (k k' : String) (v : PresenceRecord)
    (h : k' ≠ k) :
    mapGet (mapSet m k v) k' = mapGet m k' := by
  have hkk' : ¬ k = k' := fun hk => h hk.symm
  induction m with
  | nil => simp [mapSet, mapGet_cons, hkk', mapGet]
  | cons e m ih =>
    by_cases he : e.1 = k
    · have : k ≠ k' := fun hk => h hk.symm
      simp [mapSet, he, mapGet_cons, this]
    · simp [mapSet, he, mapGet_cons, ih]

theorem mapDelete_idem (m : PresenceMap) (k : String) :
    mapDelete (mapDelete m k) k = mapDelete m k := by
  simp only [mapDelete]
  refine List.filter_eq_self.2 ?_
  intro a ha
  exact (List.mem_filter.1 ha).2

theorem mapDelete_of_mapGet_none (m : PresenceMap) (k : String)
    (h : mapGet m k = none) : mapDelete m k = m := by
  induction m with
  | nil => rfl
  | cons e m ih =>
    rw [mapGet_cons] at h
    by_cases he : e.1 = k
    · simp [he] at h
    · simp [he] at h
      simp [mapDelete, List.filter_cons, he] at ih ⊢
      exact ih h

theorem upsert_def_eq (s : PresenceStore) (now : Int) (u st : String)
    (t : Option Int) (md : Option Json) :
    s.upsert now u st t md =
      (⟨s.ttlMs, mapSet s.store u ⟨u, st, now, now + max 1000 (t.getD s.ttlMs), md⟩⟩,
        PresenceStore.toSnapshot ⟨u, st, now, now + max 1000 (t.getD s.ttlMs), md⟩ now) :=
  rfl

theorem eff_ttl_pos (s : PresenceStore) (t : Option Int) :
    (0 : Int) < max 1000 (t.getD s.ttlMs) :=
  lt_of_lt_of_le (by norm_num) (le_max_left _ _)

theorem upsert_snd (s : PresenceStore) (now : Int) (u st : String)
    (t : Option Int) (md : Option Json) :
    (s.upsert now u st t md).2 =
      ⟨u, st, now, now + max 1000 (t.getD s.ttlMs), md, true,
        max 1000 (t.getD s.ttlMs)⟩ := by
  have h : (0 : Int) < max 1000 (t.getD s.ttlMs) := eff_ttl_pos s t
  simp [PresenceStore.upsert, PresenceStore.toSnapshot, add_sub_cancel_left,
    max_eq_right h.le, h]

theorem getOne_of_absent (s : PresenceStore) (now : Int) (u : String)
    (h : mapGet s.store u = none) : s.getOne now u = (s, none) := by
  simp [PresenceStore.getOne, h]

theorem getOne_of_expired (s : PresenceStore) (now : Int) (u : String)
    (r : PresenceRecord) (hr : mapGet s.store u = some r)
    (he : r.expiresAt ≤ now) :
    s.getOne now u = (⟨s.ttlMs, mapDelete s.store u⟩, none) := by
  simp [PresenceStore.getOne, hr, PresenceStore.isExpired, he]

theorem getOne_of_live (s : PresenceStore) (now : Int) (u : String)
    (r : PresenceRecord) (hr : mapGet s.store u = some r)
    (hl : now < r.expiresAt) :
    s.getOne now u = (s, some (PresenceStore.toSnapshot r now)) := by
  simp [PresenceStore.getOne, hr, PresenceStore.isExpired, not_le.2 hl]

theorem getOne_snd_some (s : PresenceStore) (now : Int) (u : String)
    (σ : PresenceSnapshot) (h : (s.getOne now u).2 = some σ) :
    ∃ r, mapGet s.store u = some r ∧ now < r.expiresAt ∧
      σ = PresenceStore.toSnapshot r now ∧ (s.getOne now u).1 = s := by
  unfold PresenceStore.getOne at h
  cases hr : mapGet s.store u with
  | none => rw [hr] at h; simp at h
  | some r =>
    rw [hr] at h
    by_cases he : PresenceStore.isExpired r now
    · simp [he] at h
    · simp [he] at h
      have hl : now < r.expiresAt := by
        have := he
        simp [PresenceStore.isExpired] at this
        exact this
      exact ⟨r, rfl, hl, h.symm, by simp [PresenceStore.getOne, hr, he]⟩

theorem toSnapshot_online (r : PresenceRecord) (now : Int)
    (hl : now < r.expiresAt) :
    (PresenceStore.toSnapshot r now).isOnline = true ∧
      0 < (PresenceStore.toSnapshot r now).ttlMs := by
  have h0 : (0 : Int) < r.expiresAt - now := by omega
  simp [PresenceStore.toSnapshot, max_eq_right h0.le, h0]

theorem getOne_online (s : PresenceStore) (now : Int) (u : String)
    (σ : PresenceSnapshot) (h : (s.getOne now u).2 = some σ) :
    σ.isOnline = true ∧ 0 < σ.ttlMs ∧ now < σ.expiresAt := by
  obtain ⟨r, _, hl, hσ, -⟩ := getOne_snd_some s now u σ h
  subst hσ
  refine ⟨(toSnapshot_online r now hl).1, (toSnapshot_online r now hl).2, ?_⟩
  simpa [PresenceStore.toSnapshot] using hl

theorem filterMap_id_cons_none (l : List (Option PresenceSnapshot)) :
    List.filterMap id (none :: l) = List.filterMap id l := rfl

theorem filterMap_id_cons_some (σ : PresenceSnapshot)
    (l : List (Option PresenceSnapshot)) :
    List.filterMap id (some σ :: l) = σ :: List.filterMap id l := rfl

theorem mem_of_mem_dedupFirst (l : List String) (y : String) :
    y ∈ dedupFirst l → y ∈ l := by
  induction l using dedupFirst.induct with
  | case1 => intro h; simp [dedupFirst] at h
  | case2 x xs ih =>
    intro h
    rw [dedupFirst] at h
    rcases List.mem_cons.1 h with h1 | h2
    · exact h1 ▸ List.mem_cons_self _ _
    · exact List.mem_cons_of_mem _ (List.mem_of_mem_filter (ih h2))

theorem nodup_dedupFirst (l : List String) : (dedupFirst l).Nodup := by
  induction l using dedupFirst.induct with
  | case1 => simp [dedupFirst]
  | case2 x xs ih =>
    rw [dedupFirst]
    refine List.nodup_cons.2 ⟨?_, ih⟩
    intro hx
    have h1 := mem_of_mem_dedupFirst _ _ hx
    have h2 := (List.mem_filter.1 h1).2
    simp at h2

theorem length_dedupFirst_le (l : List String) :
    (dedupFirst l).length ≤ l.length := by
  induction l using dedupFirst.induct with
  | case1 => simp [dedupFirst]
  | case2 x xs ih =>
    rw [dedupFirst]
    simp only [List.length_cons]
    exact Nat.succ_le_succ (le_trans ih (List.length_filter_le _ _))

theorem dedupFirst_pair (a b : String) :
    dedupFirst [a, a, b] = dedupFirst [a, b] := by
  simp [dedupFirst]

theorem getManyAux_snd_length (now : Int) (s : PresenceStore) (us : List String) :
    ((PresenceStore.getManyAux now s us).2).length = us.length := by
  induction us generalizing s with
  | nil => rfl
  | cons u us ih => simp [PresenceStore.getManyAux, ih]

theorem getMany_length_le (s : PresenceStore) (now : Int) (ids : List String) :
    ((s.getMany now ids).2).length ≤ ids.length := by
  unfold PresenceStore.getMany
  calc ((PresenceStore.getManyAux now s (dedupFirst ids)).2.filterMap id).length
      ≤ (PresenceStore.getManyAux now s (dedupFirst ids)).2.length :=
        List.length_filterMap_le _ _
    _ = (dedupFirst ids).length := getManyAux_snd_length now s (dedupFirst ids)
    _ ≤ ids.length := length_dedupFirst_le ids

theorem storeWF_getOne (s : PresenceStore) (now : Int) (u : String)
    (h : storeWF s) : storeWF (s.getOne now u).1 := by
  unfold PresenceStore.getOne
  cases hr : mapGet s.store u with
  | none => exact h
  | some r =>
    by_cases he : PresenceStore.isExpired r now
    · simp only [he, if_true]
      intro e he'
      exact h e (List.mem_of_mem_filter he')
    · simpa [he] using h

theorem mapGet_wf_userId (m : PresenceMap) (u : String) (r : PresenceRecord)
    (hwf : ∀ e ∈ m, e.2.userId = e.1) (h : mapGet m u = some r) :
    r.userId = u := by
  unfold mapGet at h
  cases hf : m.find? (fun e => e.1 = u) with
  | none => rw [hf] at h; simp at h
  | some e =>
    rw [hf] at h
    simp only [Option.some.injEq] at h
    have h1 := List.find?_some hf
    have h2 := List.mem_of_find?_eq_some hf
    have h3 := hwf e h2
    simp only [decide_eq_true_eq] at h1
    rw [← h, h3, h1]

theorem getOne_userId (s : PresenceStore) (now : Int) (u : String)
    (σ : PresenceSnapshot) (hwf : storeWF s)
    (h : (s.getOne now u).2 = some σ) : σ.userId = u := by
  obtain ⟨r, hr, _, hσ, -⟩ := getOne_snd_some s now u σ h
  subst hσ
  simpa [PresenceStore.toSnapshot] using mapGet_wf_userId s.store u r hwf hr

theorem getManyAux_online (now : Int) (us : List String) :
    ∀ (s : PresenceStore) (σ : PresenceSnapshot),
      σ ∈ (PresenceStore.getManyAux now s us).2.filterMap id →
      σ.isOnline = true ∧ 0 < σ.ttlMs := by
  induction us with
  | nil => intro s σ h; simp [PresenceStore.getManyAux] at h
  | cons u us ih =>
    intro s σ h
    have hrw : (PresenceStore.getManyAux now s (u :: us)).2 =
        (s.getOne now u).2 ::
          (PresenceStore.getManyAux now (s.getOne now u).1 us).2 := rfl
    rw [hrw] at h
    cases hp : (s.getOne now u).2 with
    | none =>
      rw [hp, filterMap_id_cons_none _] at h
      exact ih (s.getOne now u).1 σ h
    | some σ0 =>
      rw [hp, filterMap_id_cons_some _ _] at h
      rcases List.mem_cons.1 h with h1 | h2
      · subst h1
        have := getOne_online s now u σ hp
        exact ⟨this.1, this.2.1⟩
      · exact ih (s.getOne now u).1 σ h2

theorem getManyAux_userId_mem (now : Int) (us : List String) :
    ∀ (s : PresenceStore) (σ : PresenceSnapshot), storeWF s →
      σ ∈ (PresenceStore.getManyAux now s us).2.filterMap id →
      σ.userId ∈ us := by
  induction us with
  | nil => intro s σ _ h; simp [PresenceStore.getManyAux] at h
  | cons u us ih =>
    intro s σ hwf h
    have hrw : (PresenceStore.getManyAux now s (u :: us)).2 =
        (s.getOne now u).2 ::
          (PresenceStore.getManyAux now (s.getOne now u).1 us).2 := rfl
    rw [hrw] at h
    cases hp : (s.getOne now u).2 with
    | none =>
      rw [hp, filterMap_id_cons_none _] at h
      exact List.mem_cons_of_mem _ (ih _ σ (storeWF_getOne s now u hwf) h)
    | some σ0 =>
      rw [hp, filterMap_id_cons_some _ _] at h
      rcases List.mem_cons.1 h with h1 | h2
      · subst h1
        exact (getOne_userId s now u σ hwf hp) ▸ List.mem_cons_self _ _
      · exact List.mem_cons_of_mem _ (ih _ σ (storeWF_getOne s now u hwf) h2)

theorem getManyAux_count_le_one (now : Int) (a : String) (us : List String) :
    ∀ (s : PresenceStore), storeWF s → us.Nodup →
      (((PresenceStore.getManyAux now s us).2.filterMap id).filter
        (fun σ => σ.userId = a)).length ≤ 1 := by
  induction us with
  | nil => intro s _ _; simp [PresenceStore.getManyAux]
  | cons u us ih =>
    intro s hwf hnd
    obtain ⟨hu, hnd'⟩ := List.nodup_cons.1 hnd
    have hrw : (PresenceStore.getManyAux now s (u :: us)).2 =
        (s.getOne now u).2 ::
          (PresenceStore.getManyAux now (s.getOne now u).1 us).2 := rfl
    rw [hrw]
    cases hp : (s.getOne now u).2 with
    | none =>
      rw [filterMap_id_cons_none _]
      exact ih _ (storeWF_getOne s now u hwf) hnd'
    | some σ0 =>
      rw [filterMap_id_cons_some _ _]
      by_cases ha : σ0.userId = a
      · rw [List.filter_cons_of_pos (by simp [ha])]
        have hrest : ((PresenceStore.getManyAux now (s.getOne now u).1 us).2.filterMap
            id).filter (fun σ => σ.userId = a) = [] := by
          refine List.filter_eq_nil_iff.2 ?_
          intro σ hσ
          have hmem := getManyAux_userId_mem now us (s.getOne now u).1 σ
            (storeWF_getOne s now u hwf) hσ
          have hσu := getOne_userId s now u σ0 hwf hp
          simp only [decide_eq_true_eq]
          intro hc
          rw [hc, ← ha, hσu] at hmem
          exact hu hmem
        rw [hrest]
        simp
      · rw [List.filter_cons_of_neg (by simp [ha])]
        exact ih _ (storeWF_getOne s now u hwf) hnd'

theorem notifyLoop_cons_eq (env : Nat → ConnState) (upd : Json) (fid : String)
    (c0 : Nat) (f0 : List String) (rest : Subs) :
    notifyLoop env upd fid ((c0, f0) :: rest) =
      if (f0.contains fid && (env c0).isOpen) = true then
        if (env c0).sendOk = true then
          ((c0, f0) :: (notifyLoop env upd fid rest).1,
            (c0, upd) :: (notifyLoop env upd fid rest).2)
        else notifyLoop env upd fid rest
      else
        ((c0, f0) :: (notifyLoop env upd fid rest).1,
          (notifyLoop env upd fid rest).2) := rfl

theorem notifyLoop_cons_sent (env : Nat → ConnState) (upd : Json) (fid : String)
    (c0 : Nat) (f0 : List String) (rest : Subs)
    (hc : (f0.contains fid && (env c0).isOpen) = true)
    (hs : (env c0).sendOk = true) :
    notifyLoop env upd fid ((c0, f0) :: rest) =
      ((c0, f0) :: (notifyLoop env upd fid rest).1,
        (c0, upd) :: (notifyLoop env upd fid rest).2) := by
  rw [notifyLoop_cons_eq, if_pos hc, if_pos hs]

theorem notifyLoop_cons_fail (env : Nat → ConnState) (upd : Json) (fid : String)
    (c0 : Nat) (f0 : List String) (rest : Subs)
    (hc : (f0.contains fid && (env c0).isOpen) = true)
    (hs : (env c0).sendOk = false) :
    notifyLoop env upd fid ((c0, f0) :: rest) = notifyLoop env upd fid rest := by
  rw [notifyLoop_cons_eq, if_pos hc, if_neg (by simp [hs])]

theorem notifyLoop_cons_skip (env : Nat → ConnState) (upd : Json) (fid : String)
    (c0 : Nat) (f0 : List String) (rest : Subs)
    (hc : (f0.contains fid && (env c0).isOpen) = false) :
    notifyLoop env upd fid ((c0, f0) :: rest) =
      ((c0, f0) :: (notifyLoop env upd fid rest).1,
        (notifyLoop env upd fid rest).2) := by
  rw [notifyLoop_cons_eq, if_neg (by rw [hc]; simp)]

theorem notifyLoop_subs_sub (env : Nat → ConnState) (upd : Json) (fid : String)
    (subs : Subs) : ∀ e ∈ (notifyLoop env upd fid subs).1, e ∈ subs := by
  induction subs with
  | nil => intro e he; simp [notifyLoop] at he
  | cons hd rest ih =>
    obtain ⟨c0, f0⟩ := hd
    intro e he
    by_cases hc : (f0.contains fid && (env c0).isOpen) = true
    · by_cases hs : (env c0).sendOk = true
      · rw [notifyLoop_cons_sent env upd fid c0 f0 rest hc hs] at he
        rcases List.mem_cons.1 he with h1 | h2
        · exact h1 ▸ List.mem_cons_self _ _
        · exact List.mem_cons_of_mem _ (ih e h2)
      · have hs' : (env c0).sendOk = false := by simpa using hs
        rw [notifyLoop_cons_fail env upd fid c0 f0 rest hc hs'] at he
        exact List.mem_cons_of_mem _ (ih e he)
    · have hc' : (f0.contains fid && (env c0).isOpen) = false := by simpa using hc
      rw [notifyLoop_cons_skip env upd fid c0 f0 rest hc'] at he
      rcases List.mem_cons.1 he with h1 | h2
      · exact h1 ▸ List.mem_cons_self _ _
      · exact List.mem_cons_of_mem _ (ih e h2)

theorem notifyLoop_pushes_key (env : Nat → ConnState) (upd : Json) (fid : String)
    (subs : Subs) :
    ∀ e ∈ (notifyLoop env upd fid subs).2, e.1 ∈ subs.map Prod.fst := by
  induction subs with
  | nil => intro e he; simp [notifyLoop] at he
  | cons hd rest ih =>
    obtain ⟨c0, f0⟩ := hd
    intro e he
    by_cases hc : (f0.contains fid && (env c0).isOpen) = true
    · by_cases hs : (env c0).sendOk = true
      · rw [notifyLoop_cons_sent env upd fid c0 f0 rest hc hs] at he
        rcases List.mem_cons.1 he with h1 | h2
        · simp [h1]
        · simp only [List.map_cons]
          exact List.mem_cons_of_mem _ (ih e h2)
      · have hs' : (env c0).sendOk = false := by simpa using hs
        rw [notifyLoop_cons_fail env upd fid c0 f0 rest hc hs'] at he
        simp only [List.map_cons]
        exact List.mem_cons_of_mem _ (ih e he)
    · have hc' : (f0.contains fid && (env c0).isOpen) = false := by simpa using hc
      rw [notifyLoop_cons_skip env upd fid c0 f0 rest hc'] at he
      simp only [List.map_cons]
      exact List.mem_cons_of_mem _ (ih e he)

theorem notifyLoop_pushes_filter_of_not_key (env : Nat → ConnState) (upd : Json)
    (fid : String) (subs : Subs) (c : Nat) (h : c ∉ subs.map Prod.fst) :
    (notifyLoop env upd fid subs).2.filter (fun e => e.1 = c) = [] := by
  refine List.filter_eq_nil_iff.2 ?_
  intro e he
  simp only [decide_eq_true_eq]
  intro hc
  exact h (hc ▸ notifyLoop_pushes_key env upd fid subs e he)

theorem notifyLoop_pushes_filter_of_mem (env : Nat → ConnState) (upd : Json)
    (fid : String) (subs : Subs) (c : Nat) (f : List String)
    (hnd : subsKeysNodup subs) (hmem : (c, f) ∈ subs) :
    (notifyLoop env upd fid subs).2.filter (fun e => e.1 = c) =
      if f.contains fid && (env c).isOpen && (env c).sendOk then [(c, upd)]
      else [] := by
  induction subs with
  | nil => simp at hmem
  | cons hd rest ih =>
    obtain ⟨c0, f0⟩ := hd
    obtain ⟨hk0, hknd⟩ := List.nodup_cons.1 hnd
    rcases List.mem_cons.1 hmem with h1 | h2
    · injection h1 with hc0 hf0
      subst hc0
      subst hf0
      by_cases hc : (f.contains fid && (env c).isOpen) = true
      · by_cases hs : (env c).sendOk = true
        · rw [notifyLoop_cons_sent env upd fid c f rest hc hs]
          rw [List.filter_cons_of_pos (by simp)]
          rw [notifyLoop_pushes_filter_of_not_key env upd fid rest c hk0]
          rw [if_pos (by rw [hc, hs]; rfl)]
        · have hs' : (env c).sendOk = false := by simpa using hs
          rw [notifyLoop_cons_fail env upd fid c f rest hc hs']
          rw [notifyLoop_pushes_filter_of_not_key env upd fid rest c hk0]
          rw [if_neg (by simp [hs'])]
      · have hc' : (f.contains fid && (env c).isOpen) = false := by simpa using hc
        rw [notifyLoop_cons_skip env upd fid c f rest hc']
        rw [notifyLoop_pushes_filter_of_not_key env upd fid rest c hk0]
        rw [if_neg (by rw [hc']; simp)]
    · have hck : c ∈ rest.map Prod.fst := List.mem_map_of_mem Prod.fst h2
      have hcne : c0 ≠ c := fun he => hk0 (he ▸ hck)
      by_cases hc : (f0.contains fid && (env c0).isOpen) = true
      · by_cases hs : (env c0).sendOk = true
        · rw [notifyLoop_cons_sent env upd fid c0 f0 rest hc hs]
          rw [List.filter_cons_of_neg (by simp [hcne])]
          exact ih hknd h2
        · have hs' : (env c0).sendOk = false := by simpa using hs
          rw [notifyLoop_cons_fail env upd fid c0 f0 rest hc hs']
          exact ih hknd h2
      · have hc' : (f0.contains fid && (env c0).isOpen) = false := by simpa using hc
        rw [notifyLoop_cons_skip env upd fid c0 f0 rest hc']
        exact ih hknd h2

theorem notifyLoop_removes_failed (env : Nat → ConnState) (upd : Json)
    (fid : String) (subs : Subs) (c : Nat) (f : List String)
    (hnd : subsKeysNodup subs) (hmem : (c, f) ∈ subs)
    (hfid : f.contains fid = true) (ho : (env c).isOpen = true)
    (hs : (env c).sendOk = false) :
    c ∉ (notifyLoop env upd fid subs).1.map Prod.fst := by
  induction subs with
  | nil => simp at hmem
  | cons hd rest ih =>
    obtain ⟨c0, f0⟩ := hd
    obtain ⟨hk0, hknd⟩ := List.nodup_cons.1 hnd
    rcases List.mem_cons.1 hmem with h1 | h2
    · injection h1 with hc0 hf0
      subst hc0
      subst hf0
      rw [notifyLoop_cons_fail env upd fid c f rest (by rw [hfid, ho]; rfl) hs]
      intro hcmem
      obtain ⟨e, he, hec⟩ := List.mem_map.1 hcmem
      have hsub : e ∈ rest := notifyLoop_subs_sub env upd fid rest e he
      have : e.1 ∈ rest.map Prod.fst := List.mem_map_of_mem Prod.fst hsub
      exact hk0 (hec ▸ this)
    · have hck : c ∈ rest.map Prod.fst := List.mem_map_of_mem Prod.fst h2
      have hcne : c0 ≠ c := fun he => hk0 (he ▸ hck)
      by_cases hc : (f0.contains fid && (env c0).isOpen) = true
      · by_cases hs0 : (env c0).sendOk = true
        · rw [notifyLoop_cons_sent env upd fid c0 f0 rest hc hs0]
          simp only [List.map_cons, List.mem_cons]
          rintro (h | h)
          · exact hcne h.symm
          · exact ih hknd h2 h
        · have hs0' : (env c0).sendOk = false := by simpa using hs0
          rw [notifyLoop_cons_fail env upd fid c0 f0 rest hc hs0']
          exact ih hknd h2
      · have hc' : (f0.contains fid && (env c0).isOpen) = false := by simpa using hc
        rw [notifyLoop_cons_skip env upd fid c0 f0 rest hc']
        simp only [List.map_cons, List.mem_cons]
        rintro (h | h)
        · exact hcne h.symm
        · exact ih hknd h2 h

theorem subsKeysNodup_filter (subs : Subs) (p : Nat × List String → Bool)
    (h : subsKeysNodup subs) : subsKeysNodup (subs.filter p) := by
  unfold subsKeysNodup at h ⊢
  exact ((List.filter_sublist subs).map Prod.fst).nodup h

theorem statusField_hbMsg (uid status : String) (ttl : Int) (hst : status ≠ "") :
    statusField (hbMsg uid status ttl) = status := by
  unfold statusField
  rw [show (hbMsg uid status ttl).jget "status" = .str status from rfl]
  simp [Json.truthy, hst]

theorem ttlField_hbMsg (uid status : String) (ttl : Int) (httl : ttl ≠ 0) :
    ttlField (hbMsg uid status ttl) = ttl := by
  unfold ttlField
  rw [show (hbMsg uid status ttl).jget "ttlMs" = .num ttl from rfl]
  simp [httl]

theorem metadataField_hbMsg (uid status : String) (ttl : Int) :
    metadataField (hbMsg uid status ttl) = Json.obj [] := by
  unfold metadataField
  rw [show (hbMsg uid status ttl).jget "metadata" = .null from rfl]
  simp [Json.truthy]

theorem handleMessage_heartbeat_eq (env : Nat → ConnState) (now : Int)
    (st : PresenceStore) (subs : Subs) (selfId : Nat) (lu : Option String)
    (uid status : String) (ttl : Int)
    (huid : uid ≠ "") (hst : status ≠ "") (httl : ttl ≠ 0) :
    handleMessage env now st subs selfId lu (some (hbMsg uid status ttl)) =
      ⟨(st.upsert now uid status (some ttl) (some (Json.obj []))).1,
        (notifySubscribers env subs uid status now).1,
        some uid, [ackMsg uid],
        (notifySubscribers env subs uid status now).2⟩ := by
  have e0 : (hbMsg uid status ttl).isNull = false := rfl
  have e1 : jTypeIs (hbMsg uid status ttl) "heartbeat" = true := rfl
  have e2 : (hbMsg uid status ttl).jget "userId" = Json.str uid := rfl
  have e3 : (Json.str uid).truthy = true := by simp [Json.truthy, huid]
  have e4 : statusField (hbMsg uid status ttl) = status :=
    statusField_hbMsg uid status ttl hst
  have e5 : ttlField (hbMsg uid status ttl) = ttl :=
    ttlField_hbMsg uid status ttl httl
  have e6 : metadataField (hbMsg uid status ttl) = Json.obj [] :=
    metadataField_hbMsg uid status ttl
  have e7 : (st.upsert now uid status (some ttl) (some (Json.obj []))).2 =
      ⟨uid, status, now, now + max 1000 ttl, some (Json.obj []), true,
        max 1000 ttl⟩ := by
    simpa using upsert_snd st now uid status (some ttl) (some (Json.obj []))
  simp [handleMessage, e0, e1, e2, e3, e4, e5, e6, e7]

theorem handleMessage_offline_eq (env : Nat → ConnState) (now : Int)
    (st : PresenceStore) (subs : Subs) (selfId : Nat) (lu : Option String)
    (uid : String) (huid : uid ≠ "") :
    handleMessage env now st subs selfId lu (some (offlineMsg uid)) =
      ⟨(st.getOne now uid).1.markOffline uid,
        (notifySubscribers env subs uid "offline"
          (capturedLastSeen (st.getOne now uid).2 now)).1,
        some uid, [],
        (notifySubscribers env subs uid "offline"
          (capturedLastSeen (st.getOne now uid).2 now)).2⟩ := by
  have e0 : (offlineMsg uid).isNull = false := rfl
  have e1 : jTypeIs (offlineMsg uid) "heartbeat" = false := rfl
  have e2 : jTypeIs (offlineMsg uid) "offline" = true := rfl
  have e3 : (offlineMsg uid).jget "userId" = Json.str uid := rfl
  have e4 : (Json.str uid).truthy = true := by simp [Json.truthy, huid]
  simp [handleMessage, e0, e1, e2, e3, e4, capturedLastSeen]

/-- C1: `getOne` performs read-through eviction: a stored record with
`expiresAt <= now` is deleted and reported absent (idempotently — a second
`getOne` is also absent), a record is never returned as present once
`expiresAt <= now`, and a live record is returned as a freshly computed
snapshot. -/
theorem getOne_lazy_eviction (s : PresenceStore) (now : Int) (u : String) :
    (∀ r, mapGet s.store u = some r → r.expiresAt ≤ now →
      (s.getOne now u).2 = none ∧
      (((s.getOne now u).1).getOne now u).2 = none ∧
      mapGet (s.getOne now u).1.store u = none) ∧
    (∀ σ, (s.getOne now u).2 = some σ → now < σ.expiresAt) ∧
    (∀ r, mapGet s.store u = some r → now < r.expiresAt →
      s.getOne now u = (s, some (PresenceStore.toSnapshot r now))) := by
  refine ⟨?_, ?_, ?_⟩
  · intro r hr he
    have h1 := getOne_of_expired s now u r hr he
    rw [h1]
    refine ⟨rfl, ?_, mapGet_mapDelete_self s.store u⟩
    rw [getOne_of_absent _ now u (mapGet_mapDelete_self s.store u)]
  · intro σ h
    exact (getOne_online s now u σ h).2.2
  · intro r hr hl
    exact getOne_of_live s now u r hr hl

/-- Witness for C1 at the concrete store `sA` and the exact expiry instant. -/
theorem getOne_lazy_eviction_witness :
    (sA.getOne 1000 "a").2 = none ∧
    (((sA.getOne 1000 "a").1).getOne 1000 "a").2 = none := by
  have h := (getOne_lazy_eviction sA 1000 "a").1 rA rfl (by decide)
  exact ⟨h.1, h.2.1⟩

/-- C2: `upsert` computes `effectiveTtl = max(1000, override or default)`,
sets `expiresAt = now + effectiveTtl`, wholesale-replaces the prior record
(leaving other keys alone), returns the new snapshot, and that snapshot read
immediately has `ttlMs = effectiveTtl ≥ 1000` and is online. -/
theorem upsert_contract (s : PresenceStore) (now : Int) (u status : String)
    (ttlOverride : Option Int) (md : Option Json) :
    (s.upsert now u status ttlOverride md).1.store =
      mapSet s.store u
        ⟨u, status, now, now + max 1000 (ttlOverride.getD s.ttlMs), md⟩ ∧
    mapGet (s.upsert now u status ttlOverride md).1.store u =
      some ⟨u, status, now, now + max 1000 (ttlOverride.getD s.ttlMs), md⟩ ∧
    (∀ v, v ≠ u →
      mapGet (s.upsert now u status ttlOverride md).1.store v =
        mapGet s.store v) ∧
    (s.upsert now u status ttlOverride md).2 =
      PresenceStore.toSnapshot
        ⟨u, status, now, now + max 1000 (ttlOverride.getD s.ttlMs), md⟩ now ∧
    (s.upsert now u status ttlOverride md).2.ttlMs =
      max 1000 (ttlOverride.getD s.ttlMs) ∧
    1000 ≤ (s.upsert now u status ttlOverride md).2.ttlMs ∧
    (s.upsert now u status ttlOverride md).2.isOnline = true ∧
    ((s.upsert now u status ttlOverride md).1.getOne now u).2 =
      some ((s.upsert now u status ttlOverride md).2) := by
  have heff : (0 : Int) < max 1000 (ttlOverride.getD s.ttlMs) := eff_ttl_pos s ttlOverride
  have hstore : (s.upsert now u status ttlOverride md).1.store =
      mapSet s.store u
        ⟨u, status, now, now + max 1000 (ttlOverride.getD s.ttlMs), md⟩ := rfl
  have hget : mapGet (s.upsert now u status ttlOverride md).1.store u =
      some ⟨u, status, now, now + max 1000 (ttlOverride.getD s.ttlMs), md⟩ := by
    rw [hstore]
    exact mapGet_mapSet_self _ _ _
  have hsnd := upsert_snd s now u status ttlOverride md
  refine ⟨hstore, hget, ?_, rfl, ?_, ?_, ?_, ?_⟩
  · intro v hv
    rw [hstore]
    exact mapGet_mapSet_ne _ _ _ _ hv
  · rw [hsnd]
  · rw [hsnd]
    exact le_max_left _ _
  · rw [hsnd]
  · have hlive := getOne_of_live (s.upsert now u status ttlOverride md).1 now u
      ⟨u, status, now, now + max 1000 (ttlOverride.getD s.ttlMs), md⟩ hget
      (by show now < now + max 1000 (ttlOverride.getD s.ttlMs); omega)
    rw [hlive]
    have : PresenceStore.toSnapshot
        ⟨u, status, now, now + max 1000 (ttlOverride.getD s.ttlMs), md⟩ now =
        (s.upsert now u status ttlOverride md).2 := rfl
    rw [this]

/-- Witness for C2 with the claim's `ttlOverrideMs = 10`: the floor raises the
effective TTL to 1000. -/
theorem upsert_contract_witness :
    1000 ≤ (sEmpty.upsert 0 "u" "online" (some 10) none).2.ttlMs ∧
    mapGet (sEmpty.upsert 0 "u" "online" (some 10) none).1.store "u" =
      some ⟨"u", "online", 0, 1000, none⟩ ∧
    mapGet (sEmpty.upsert 0 "u" "online" (some 10) none).1.store "v" = none := by
  have h := upsert_contract sEmpty 0 "u" "online" (some 10) none
  refine ⟨h.2.2.2.2.2.1, ?_, ?_⟩
  · have h2 := h.2.1
    simpa using h2
  · have h3 := h.2.2.1 "v" (by decide)
    simpa [sEmpty] using h3

/-- C8: `markOffline` is total and idempotent: it removes the record when
present, is a no-op (returning the very same store) when absent, deleting
twice equals deleting once, and a read after it is absent. -/
theorem markOffline_idempotent (s : PresenceStore) (u : String) :
    mapGet (s.markOffline u).store u = none ∧
    (s.markOffline u).markOffline u = s.markOffline u ∧
    (mapGet s.store u = none → s.markOffline u = s) ∧
    (∀ now, ((s.markOffline u).getOne now u).2 = none) := by
  refine ⟨mapGet_mapDelete_self s.store u, ?_, ?_, ?_⟩
  · show (⟨s.ttlMs, mapDelete (mapDelete s.store u) u⟩ : PresenceStore) =
      ⟨s.ttlMs, mapDelete s.store u⟩
    rw [mapDelete_idem]
  · intro h
    show (⟨s.ttlMs, mapDelete s.store u⟩ : PresenceStore) = s
    rw [mapDelete_of_mapGet_none s.store u h]
  · intro now
    rw [getOne_of_absent _ now u (mapGet_mapDelete_self s.store u)]

/-- Witness for C8: removal on the concrete store `sA`, no-op on the empty
store. -/
theorem markOffline_idempotent_witness :
    mapGet (sA.markOffline "a").store "a" = none ∧
    sEmpty.markOffline "x" = sEmpty := by
  exact ⟨(markOffline_idempotent sA "a").1,
    (markOffline_idempotent sEmpty "x").2.2.1 rfl⟩

/-- C9: `getMany` de-duplicates its input (`[a, a, b]` behaves as `[a, b]`),
its result is never longer than the input, and — for a well-formed store —
contains at most one entry per user id. -/
theorem getMany_dedup_spec (s : PresenceStore) (now : Int) (a b : String)
    (ids : List String) :
    s.getMany now [a, a, b] = s.getMany now [a, b] ∧
    ((s.getMany now ids).2).length ≤ ids.length ∧
    (storeWF s → ∀ u,
      (((s.getMany now ids).2).filter (fun σ => σ.userId = u)).length ≤ 1) := by
  refine ⟨?_, getMany_length_le s now ids, ?_⟩
  · unfold PresenceStore.getMany
    rw [dedupFirst_pair a b]
  · intro hwf u
    exact getManyAux_count_le_one now u (dedupFirst ids) s hwf
      (nodup_dedupFirst ids)

/-- Witness for C9 on the concrete store `sA`. -/
theorem getMany_dedup_spec_witness :
    sA.getMany 0 ["a", "a", "b"] = sA.getMany 0 ["a", "b"] ∧
    ((sA.getMany 0 ["a", "b"]).2.filter
      (fun σ => σ.userId = "a")).length ≤ 1 := by
  have h := getMany_dedup_spec sA 0 "a" "b" ["a", "b"]
  refine ⟨h.1, h.2.2 ?_ "a"⟩
  intro e he
  simp only [sA, List.mem_singleton] at he
  rw [he]
  rfl

/-- C10: every snapshot returned by `getOne` or `getMany` (at one instant) is
online with a positive `ttlMs`, so the `"offline"` branch of the status
mapping used in the reply handlers is unreachable for them. -/
theorem snapshots_online (s : PresenceStore) (now : Int) (u : String)
    (ids : List String) (σ : PresenceSnapshot) :
    ((s.getOne now u).2 = some σ →
      σ.isOnline = true ∧ 0 < σ.ttlMs ∧
      userPayload σ = Json.obj [("userId", .str σ.userId),
        ("status", .str σ.status), ("lastSeen", .num σ.lastSeen),
        ("metadata", σ.metadata.getD .null)]) ∧
    (σ ∈ (s.getMany now ids).2 →
      σ.isOnline = true ∧ 0 < σ.ttlMs ∧
      userPayload σ = Json.obj [("userId", .str σ.userId),
        ("status", .str σ.status), ("lastSeen", .num σ.lastSeen),
        ("metadata", σ.metadata.getD .null)]) := by
  have hpay : ∀ τ : PresenceSnapshot, τ.isOnline = true →
      userPayload τ = Json.obj [("userId", .str τ.userId),
        ("status", .str τ.status), ("lastSeen", .num τ.lastSeen),
        ("metadata", τ.metadata.getD .null)] := by
    intro τ hτ
    simp [userPayload, hτ]
  refine ⟨?_, ?_⟩
  · intro h
    have h1 := getOne_online s now u σ h
    exact ⟨h1.1, h1.2.1, hpay σ h1.1⟩
  · intro h
    have h1 := getManyAux_online now (dedupFirst ids) s σ h
    exact ⟨h1.1, h1.2, hpay σ h1.1⟩

/-- Witness for C10: the snapshot `getOne` returns for `"a"` at time 0. -/
theorem snapshots_online_witness :
    (PresenceStore.toSnapshot rA 0).isOnline = true ∧
    0 < (PresenceStore.toSnapshot rA 0).ttlMs ∧
    userPayload (PresenceStore.toSnapshot rA 0) =
      Json.obj [("userId", .str (PresenceStore.toSnapshot rA 0).userId),
        ("status", .str (PresenceStore.toSnapshot rA 0).status),
        ("lastSeen", .num (PresenceStore.toSnapshot rA 0).lastSeen),
        ("metadata", (PresenceStore.toSnapshot rA 0).metadata.getD .null)] :=
  (snapshots_online sA 0 "a" [] (PresenceStore.toSnapshot rA 0)).1 rfl

/-- C5: broadcast fan-out is exact.  For a heartbeat carrying
`status = "away"` for peer `p`: the two connections subscribed to `p` (open,
sends succeeding) each receive exactly one `friends-presence-update` carrying
status `"away"`, and a connection not subscribed to `p` receives nothing. -/
theorem broadcast_fanout_exact (env : Nat → ConnState) (now : Int)
    (st : PresenceStore) (subs : Subs) (selfId : Nat) (lu : Option String)
    (c1 c2 c3 : Nat) (p : String) (f1 f2 : List String) (ttl : Int)
    (hnd : subsKeysNodup subs) (hp : p ≠ "") (httl : ttl ≠ 0)
    (h1 : (c1, f1) ∈ subs) (h1p : p ∈ f1)
    (h1o : (env c1).isOpen = true) (h1s : (env c1).sendOk = true)
    (h2 : (c2, f2) ∈ subs) (h2p : p ∈ f2)
    (h2o : (env c2).isOpen = true) (h2s : (env c2).sendOk = true)
    (h3 : ∀ f, (c3, f) ∈ subs → p ∉ f) :
    ((handleMessage env now st subs selfId lu
      (some (hbMsg p "away" ttl))).pushes.filter (fun e => e.1 = c1)) =
        [(c1, presenceUpdateMsg p "away" now)] ∧
    ((handleMessage env now st subs selfId lu
      (some (hbMsg p "away" ttl))).pushes.filter (fun e => e.1 = c2)) =
        [(c2, presenceUpdateMsg p "away" now)] ∧
    ((handleMessage env now st subs selfId lu
      (some (hbMsg p "away" ttl))).pushes.filter (fun e => e.1 = c3)) = [] := by
  rw [handleMessage_heartbeat_eq env now st subs selfId lu p "away" ttl hp
    (by decide) httl]
  dsimp only
  unfold notifySubscribers
  refine ⟨?_, ?_, ?_⟩
  · rw [notifyLoop_pushes_filter_of_mem env _ p subs c1 f1 hnd h1]
    rw [if_pos (by
      rw [show f1.contains p = true from List.elem_iff.mpr h1p, h1o, h1s]; rfl)]
  · rw [notifyLoop_pushes_filter_of_mem env _ p subs c2 f2 hnd h2]
    rw [if_pos (by
      rw [show f2.contains p = true from List.elem_iff.mpr h2p, h2o, h2s]; rfl)]
  · by_cases hk : c3 ∈ subs.map Prod.fst
    · obtain ⟨e, he, hec⟩ := List.mem_map.1 hk
      obtain ⟨ce, fe⟩ := e
      cases hec
      have hnotin := h3 fe he
      rw [notifyLoop_pushes_filter_of_mem env _ p subs ce fe hnd he]
      have hcf : fe.contains p = false := by
        rw [Bool.eq_false_iff]
        intro hco
        exact hnotin (List.elem_iff.mp hco)
      rw [if_neg (by rw [hcf]; simp)]
    · exact notifyLoop_pushes_filter_of_not_key env _ p subs c3 hk

/-- Witness for C5: connections 1, 2 watch `"p"`, connection 3 watches only
`"q"`; one heartbeat for `"p"` with status `"away"`. -/
theorem broadcast_fanout_exact_witness :
    ((handleMessage envAll 0 sEmpty subsEx 0 none
      (some (hbMsg "p" "away" 2000))).pushes.filter (fun e => e.1 = 1)) =
        [(1, presenceUpdateMsg "p" "away" 0)] ∧
    ((handleMessage envAll 0 sEmpty subsEx 0 none
      (some (hbMsg "p" "away" 2000))).pushes.filter (fun e => e.1 = 2)) =
        [(2, presenceUpdateMsg "p" "away" 0)] ∧
    ((handleMessage envAll 0 sEmpty subsEx 0 none
      (some (hbMsg "p" "away" 2000))).pushes.filter (fun e => e.1 = 3)) = [] := by
  refine broadcast_fanout_exact envAll 0 sEmpty subsEx 0 none 1 2 3 "p"
    ["p"] ["p"] 2000 (by unfold subsKeysNodup; decide) (by decide) (by decide)
    (by decide) (by decide) rfl rfl (by decide) (by decide) rfl rfl ?_
  intro f hf
  simp [subsEx, Prod.mk.injEq] at hf
  rw [hf]
  decide

/-- C7: a send failure during a broadcast removes only that connection's
registry entry, delivers nothing to it, and does not disturb delivery to any
other subscriber; the loop itself returns normally, so the failure is never
surfaced to the sender or the other subscribers. -/
theorem broadcast_failure_isolated (env : Nat → ConnState) (subs : Subs)
    (fid status : String) (lastSeen : Int) (c c' : Nat) (f f' : List String)
    (hnd : subsKeysNodup subs)
    (hmem : (c, f) ∈ subs) (hfid : fid ∈ f)
    (ho : (env c).isOpen = true) (hs : (env c).sendOk = false)
    (hmem' : (c', f') ∈ subs) (hfid' : fid ∈ f')
    (ho' : (env c').isOpen = true) (hs' : (env c').sendOk = true) :
    (∀ g, (c, g) ∉ (notifySubscribers env subs fid status lastSeen).1) ∧
    ((notifySubscribers env subs fid status lastSeen).2.filter
      (fun e => e.1 = c)) = [] ∧
    ((notifySubscribers env subs fid status lastSeen).2.filter
      (fun e => e.1 = c')) = [(c', presenceUpdateMsg fid status lastSeen)] := by
  unfold notifySubscribers
  have hcf : f.contains fid = true := List.elem_iff.mpr hfid
  refine ⟨?_, ?_, ?_⟩
  · intro g hg
    have hk := notifyLoop_removes_failed env
      (presenceUpdateMsg fid status lastSeen) fid subs c f hnd hmem hcf ho hs
    exact hk (List.mem_map_of_mem Prod.fst hg)
  · rw [notifyLoop_pushes_filter_of_mem env _ fid subs c f hnd hmem]
    rw [if_neg (by rw [hs]; simp)]
  · rw [notifyLoop_pushes_filter_of_mem env _ fid subs c' f' hnd hmem']
    rw [if_pos (by
      rw [show f'.contains fid = true from List.elem_iff.mpr hfid', ho', hs']; rfl)]

/-- Witness for C7: connection 1's send fails, connection 2 still gets its
single update. -/
theorem broadcast_failure_isolated_witness :
    (∀ g, (1, g) ∉ (notifySubscribers envFail1 subsEx "p" "away" 0).1) ∧
    ((notifySubscribers envFail1 subsEx "p" "away" 0).2.filter
      (fun e => e.1 = 1)) = [] ∧
    ((notifySubscribers envFail1 subsEx "p" "away" 0).2.filter
      (fun e => e.1 = 2)) = [(2, presenceUpdateMsg "p" "away" 0)] :=
  broadcast_failure_isolated envFail1 subsEx "p" "away" 0 1 2 ["p"] ["p"]
    (by unfold subsKeysNodup; decide) (by decide) (by decide) rfl rfl
    (by decide) (by decide) rfl rfl

/-- C6: on close of a connection identified as `u`: `u`'s presence record is
removed (a subsequent `getOne` is absent), every other open subscriber of `u`
with a working send receives exactly one `"offline"` update, the closing
connection's registry entry is removed, and an unidentified connection's
close removes only the registry entry. -/
theorem close_cleanup (env : Nat → ConnState) (now : Int) (st : PresenceStore)
    (subs : Subs) (selfId : Nat) (u : String) (c : Nat) (f : List String)
    (hnd : subsKeysNodup subs) (hc : c ≠ selfId)
    (hmem : (c, f) ∈ subs) (hu : u ∈ f)
    (ho : (env c).isOpen = true) (hs : (env c).sendOk = true) :
    (((handleClose env now st subs selfId (some u)).store.getOne now u).2 =
      none) ∧
    ((handleClose env now st subs selfId (some u)).pushes.filter
      (fun e => e.1 = c)) =
      [(c, presenceUpdateMsg u "offline"
        (capturedLastSeen (st.getOne now u).2 now))] ∧
    (∀ g, (selfId, g) ∉ (handleClose env now st subs selfId (some u)).subs) ∧
    handleClose env now st subs selfId none =
      ⟨st, subs.filter (fun e => e.1 ≠ selfId), []⟩ := by
  have heq : handleClose env now st subs selfId (some u) =
      ⟨((st.getOne now u).1).markOffline u,
        (notifySubscribers env (subs.filter (fun e => e.1 ≠ selfId)) u
          "offline" (capturedLastSeen (st.getOne now u).2 now)).1,
        (notifySubscribers env (subs.filter (fun e => e.1 ≠ selfId)) u
          "offline" (capturedLastSeen (st.getOne now u).2 now)).2⟩ := rfl
  rw [heq]
  have hnd1 : subsKeysNodup (subs.filter (fun e => e.1 ≠ selfId)) :=
    subsKeysNodup_filter subs _ hnd
  have hmem1 : (c, f) ∈ subs.filter (fun e => e.1 ≠ selfId) :=
    List.mem_filter.2 ⟨hmem, by simp [hc]⟩
  refine ⟨?_, ?_, ?_, rfl⟩
  · dsimp only
    exact congrArg Prod.snd
      (getOne_of_absent _ now u (mapGet_mapDelete_self _ u))
  · dsimp only
    unfold notifySubscribers
    rw [notifyLoop_pushes_filter_of_mem env _ u _ c f hnd1 hmem1]
    have hfu : f.contains u = true := List.elem_iff.mpr hu
    rw [if_pos (by rw [hfu, ho, hs]; rfl)]
  · intro g hg
    dsimp only at hg
    have hsub := notifyLoop_subs_sub env _ u _ (selfId, g) hg
    have h2 := (List.mem_filter.1 hsub).2
    simp at h2

/-- Witness for C6: connection 1 watches `"p"`; the connection with id 0,
identified as `"p"`, closes. -/
theorem close_cleanup_witness :
    (((handleClose envAll 0 sEmpty subsEx 0 (some "p")).store.getOne 0
      "p").2 = none) ∧
    ((handleClose envAll 0 sEmpty subsEx 0 (some "p")).pushes.filter
      (fun e => e.1 = 1)) =
      [(1, presenceUpdateMsg "p" "offline"
        (capturedLastSeen (sEmpty.getOne 0 "p").2 0))] ∧
    (∀ g, (0, g) ∉ (handleClose envAll 0 sEmpty subsEx 0 (some "p")).subs) := by
  have h := close_cleanup envAll 0 sEmpty subsEx 0 "p" 1 ["p"]
    (by unfold subsKeysNodup; decide) (by decide) (by decide) (by decide)
    rfl rfl
  exact ⟨h.1, h.2.1, h.2.2.1⟩

theorem jTypeIs_eq_str (m : Json) (t : String) (h : jTypeIs m t = true) :
    m.jget "type" = Json.str t := by
  unfold jTypeIs at h
  cases hj : m.jget "type" <;> rw [hj] at h <;> simp [Json.isStrLit] at h
  rw [h]

theorem jTypeIs_ne (m : Json) (t t' : String) (h : m.jget "type" = Json.str t)
    (hne : t' ≠ t) : jTypeIs m t' = false := by
  unfold jTypeIs
  rw [h]
  simp [Json.isStrLit, Ne.symm hne]

/-- C3 counterexample: the plain WebSocket server (`wsServer.ts`) and the
HTTP heartbeat handler (`server.ts`) both perform an `upsert` (the record is
stored) while delivering no message to any other connection — so a code path
with an `upsert` and no subscriber notification exists. -/
theorem upsert_without_notify_ce :
    mapGet (wsSimpleHandleMessage 0 sEmpty none
      (some (hbMsg "u1" "online" 2000))).store.store "u1" =
      some ⟨"u1", "online", 0, 2000, some (Json.obj [])⟩ ∧
    (wsSimpleHandleMessage 0 sEmpty none
      (some (hbMsg "u1" "online" 2000))).pushes = [] ∧
    mapGet (httpHeartbeatValid sEmpty 0 "u1" "online" (some 2000)
      none).store.store "u1" = some ⟨"u1", "online", 0, 2000, none⟩ ∧
    (httpHeartbeatValid sEmpty 0 "u1" "online" (some 2000) none).pushes = [] :=
  ⟨rfl, rfl, rfl, rfl⟩

/-- C3 (amended): in the subscription-enabled WebSocket server, every path
that performs an `upsert` or `markOffline` — the heartbeat branch, the
offline branch, and the close handler of an identified connection — delivers
exactly one notification to each live subscriber of the affected user; the
plain WebSocket server and the HTTP handlers mutate the store without any
subscriber notification (see the counterexample). -/
theorem notify_after_each_mutation (env : Nat → ConnState) (now : Int)
    (st : PresenceStore) (subs : Subs) (selfId : Nat) (lu : Option String)
    (uid status : String) (ttl : Int) (c : Nat) (f : List String)
    (hnd : subsKeysNodup subs) (huid : uid ≠ "") (hst : status ≠ "")
    (httl : ttl ≠ 0) (hcself : c ≠ selfId) (hmem : (c, f) ∈ subs)
    (hin : uid ∈ f) (ho : (env c).isOpen = true) (hs : (env c).sendOk = true) :
    ((handleMessage env now st subs selfId lu
      (some (hbMsg uid status ttl))).pushes.filter
        (fun e => e.1 = c)).length = 1 ∧
    ((handleMessage env now st subs selfId lu
      (some (offlineMsg uid))).pushes.filter
        (fun e => e.1 = c)).length = 1 ∧
    ((handleClose env now st subs selfId (some uid)).pushes.filter
      (fun e => e.1 = c)).length = 1 := by
  have hcf : f.contains uid = true := List.elem_iff.mpr hin
  refine ⟨?_, ?_, ?_⟩
  · rw [handleMessage_heartbeat_eq env now st subs selfId lu uid status ttl
      huid hst httl]
    dsimp only
    unfold notifySubscribers
    rw [notifyLoop_pushes_filter_of_mem env _ uid subs c f hnd hmem]
    rw [if_pos (by rw [hcf, ho, hs]; rfl)]
    rfl
  · rw [handleMessage_offline_eq env now st subs selfId lu uid huid]
    dsimp only
    unfold notifySubscribers
    rw [notifyLoop_pushes_filter_of_mem env _ uid subs c f hnd hmem]
    rw [if_pos (by rw [hcf, ho, hs]; rfl)]
    rfl
  · have heq : handleClose env now st subs selfId (some uid) =
        ⟨((st.getOne now uid).1).markOffline uid,
          (notifySubscribers env (subs.filter (fun e => e.1 ≠ selfId)) uid
            "offline" (capturedLastSeen (st.getOne now uid).2 now)).1,
          (notifySubscribers env (subs.filter (fun e => e.1 ≠ selfId)) uid
            "offline" (capturedLastSeen (st.getOne now uid).2 now)).2⟩ := rfl
    rw [heq]
    dsimp only
    have hnd1 : subsKeysNodup (subs.filter (fun e => e.1 ≠ selfId)) :=
      subsKeysNodup_filter subs _ hnd
    have hmem1 : (c, f) ∈ subs.filter (fun e => e.1 ≠ selfId) :=
      List.mem_filter.2 ⟨hmem, by simp [hcself]⟩
    unfold notifySubscribers
    rw [notifyLoop_pushes_filter_of_mem env _ uid _ c f hnd1 hmem1]
    rw [if_pos (by rw [hcf, ho, hs]; rfl)]
    rfl

/-- Witness for the amended C3: connection 1 watches `"p"`; the heartbeat,
offline and close paths each deliver it exactly one notification. -/
theorem notify_after_each_mutation_witness :
    ((handleMessage envAll 0 sEmpty subsEx 0 none
      (some (hbMsg "p" "busy" 2000))).pushes.filter
        (fun e => e.1 = 1)).length = 1 ∧
    ((handleMessage envAll 0 sEmpty subsEx 0 none
      (some (offlineMsg "p"))).pushes.filter
        (fun e => e.1 = 1)).length = 1 ∧
    ((handleClose envAll 0 sEmpty subsEx 0 (some "p")).pushes.filter
      (fun e => e.1 = 1)).length = 1 :=
  notify_after_each_mutation envAll 0 sEmpty subsEx 0 none "p" "busy" 2000 1
    ["p"] (by unfold subsKeysNodup; decide) (by decide) (by decide)
    (by decide) (by decide) (by decide) (by decide) rfl rfl

/-- C4 counterexample: the parsed message `{"type":"heartbeat"}` is missing
its required `userId` field, yet the handler sends no reply at all — not the
generic error reply the claim requires for messages with missing required
fields. -/
theorem missing_fields_silent_ce :
    (handleMessage envAll 0 sEmpty [] 0 none
      (some (Json.obj [("type", Json.str "heartbeat")]))).replies = [] :=
  rfl

/-- C4 (amended): a message that fails to parse yields exactly one generic
error reply and leaves all state untouched (the handler is a total function,
so neither the connection nor the process can crash); a parsed message with
an unknown type tag, or with a known type tag but missing/ill-typed required
fields (`userId` falsy for heartbeat/offline, `userIds`/`friendIds` not an
array), is ignored silently: no reply, no error, no state change. -/
theorem handler_error_reply_spec (env : Nat → ConnState) (now : Int)
    (st : PresenceStore) (subs : Subs) (selfId : Nat) (lu : Option String)
    (msg : Json) :
    (handleMessage env now st subs selfId lu none =
      ⟨st, subs, lu, [errorMsg], []⟩) ∧
    (msg.isNull = false →
      jTypeIs msg "heartbeat" = false → jTypeIs msg "offline" = false →
      jTypeIs msg "query-presence" = false →
      jTypeIs msg "subscribe-friends" = false →
      jTypeIs msg "unsubscribe-friends" = false →
      handleMessage env now st subs selfId lu (some msg) =
        ⟨st, subs, lu, [], []⟩) ∧
    (msg.isNull = false → jTypeIs msg "heartbeat" = true →
      (msg.jget "userId").truthy = false →
      handleMessage env now st subs selfId lu (some msg) =
        ⟨st, subs, lu, [], []⟩) ∧
    (msg.isNull = false → jTypeIs msg "offline" = true →
      (msg.jget "userId").truthy = false →
      handleMessage env now st subs selfId lu (some msg) =
        ⟨st, subs, lu, [], []⟩) ∧
    (msg.isNull = false → jTypeIs msg "query-presence" = true →
      (msg.jget "userIds").isArr = false →
      handleMessage env now st subs selfId lu (some msg) =
        ⟨st, subs, lu, [], []⟩) ∧
    (msg.isNull = false → jTypeIs msg "subscribe-friends" = true →
      (msg.jget "friendIds").isArr = false →
      handleMessage env now st subs selfId lu (some msg) =
        ⟨st, subs, lu, [], []⟩) := by
  refine ⟨rfl, ?_, ?_, ?_, ?_, ?_⟩
  · intro h0 h1 h2 h3 h4 h5
    simp [handleMessage, h0, h1, h2, h3, h4, h5]
  · intro h0 h1 hu
    have ht := jTypeIs_eq_str msg "heartbeat" h1
    have h2 := jTypeIs_ne msg "heartbeat" "offline" ht (by decide)
    have h3 := jTypeIs_ne msg "heartbeat" "query-presence" ht (by decide)
    have h4 := jTypeIs_ne msg "heartbeat" "subscribe-friends" ht (by decide)
    have h5 := jTypeIs_ne msg "heartbeat" "unsubscribe-friends" ht (by decide)
    simp [handleMessage, h0, h1, h2, h3, h4, h5, hu]
  · intro h0 h1 hu
    have ht := jTypeIs_eq_str msg "offline" h1
    have h2 := jTypeIs_ne msg "offline" "heartbeat" ht (by decide)
    have h3 := jTypeIs_ne msg "offline" "query-presence" ht (by decide)
    have h4 := jTypeIs_ne msg "offline" "subscribe-friends" ht (by decide)
    have h5 := jTypeIs_ne msg "offline" "unsubscribe-friends" ht (by decide)
    simp [handleMessage, h0, h1, h2, h3, h4, h5, hu]
  · intro h0 h1 hu
    have ht := jTypeIs_eq_str msg "query-presence" h1
    have h2 := jTypeIs_ne msg "query-presence" "heartbeat" ht (by decide)
    have h3 := jTypeIs_ne msg "query-presence" "offline" ht (by decide)
    have h4 := jTypeIs_ne msg "query-presence" "subscribe-friends" ht (by decide)
    have h5 := jTypeIs_ne msg "query-presence" "unsubscribe-friends" ht (by decide)
    simp [handleMessage, h0, h1, h2, h3, h4, h5, hu]
  · intro h0 h1 hu
    have ht := jTypeIs_eq_str msg "subscribe-friends" h1
    have h2 := jTypeIs_ne msg "subscribe-friends" "heartbeat" ht (by decide)
    have h3 := jTypeIs_ne msg "subscribe-friends" "offline" ht (by decide)
    have h4 := jTypeIs_ne msg "subscribe-friends" "query-presence" ht (by decide)
    have h5 := jTypeIs_ne msg "subscribe-friends" "unsubscribe-friends" ht
      (by decide)
    simp [handleMessage, h0, h1, h2, h3, h4, h5, hu]

/-- Witness for the amended C4: a parse failure gets the error reply; the
unknown type `"bogus"` and a heartbeat missing its `userId` are silently
ignored. -/
theorem handler_error_reply_spec_witness :
    handleMessage envAll 0 sEmpty [] 0 none none =
      ⟨sEmpty, [], none, [errorMsg], []⟩ ∧
    handleMessage envAll 0 sEmpty [] 0 none
      (some (Json.obj [("type", Json.str "bogus")])) =
      ⟨sEmpty, [], none, [], []⟩ ∧
    handleMessage envAll 0 sEmpty [] 0 none
      (some (Json.obj [("type", Json.str "heartbeat")])) =
      ⟨sEmpty, [], none, [], []⟩ := by
  have h := handler_error_reply_spec envAll 0 sEmpty [] 0 none
    (Json.obj [("type", Json.str "bogus")])
  have h' := handler_error_reply_spec envAll 0 sEmpty [] 0 none
    (Json.obj [("type", Json.str "heartbeat")])
  exact ⟨h.1, h.2.1 rfl rfl rfl rfl rfl rfl, h'.2.2.1 rfl rfl rfl⟩
